import Mathlib

/-!
Verification of the MT5-WS-PIPELINE repository: a shallow embedding of the
frontend Supabase client helpers and realtime hooks, the SQL trades-table
sink semantics, and the bridge main-loop sketch, together with theorems
settling the specification's claims about them.
-/

/-- Trade action tag, from the `action VARCHAR(10)` column ('OPEN' or 'CLOSE')
and the TS union type `'OPEN' | 'CLOSE'`. -/
inductive TradeAction where
  | OPEN
  | CLOSE
deriving DecidableEq, Repr

/-- Realtime event type carried in a Supabase `postgres_changes` payload
(`payload.eventType`); `OTHER` stands for any other string (the TS handlers
switch on the three names and fall through otherwise). -/
inductive EventType where
  | INSERT
  | UPDATE
  | DELETE
  | OTHER
deriving DecidableEq, Repr

/-- A row of the `positions` table, from the TS interface `Position` in
`frontend/lib/supabase-client.ts` (decimal columns as rationals, nullable
columns as `Option`). -/
structure Position where
  ticket : ℕ
  symbol : String
  type : ℕ
  volume : ℚ
  price_open : ℚ
  price_current : Option ℚ
  profit : Option ℚ
  swap : Option ℚ
  commission : Option ℚ
  comment : Option String
  updated_at : String
deriving DecidableEq, Repr

/-- A row of the `trades` table, from the TS interface `Trade` in
`frontend/lib/supabase-client.ts` (`id` is the BIGSERIAL key; `timestamp`
is modelled as an abstract discrete time value). -/
structure Trade where
  id : ℕ
  ticket : ℕ
  action : TradeAction
  symbol : String
  type : ℕ
  volume : ℚ
  price : ℚ
  profit : Option ℚ
  swap : Option ℚ
  commission : Option ℚ
  comment : Option String
  timestamp : ℕ
deriving DecidableEq, Repr

/-- Bridge status values, from the TS union `'healthy' | 'offline' | 'error'`. -/
inductive BridgeState where
  | healthy
  | offline
  | error
deriving DecidableEq, Repr

/-- The singleton `bridge_status` row, from the TS interface `BridgeStatus`. -/
structure BridgeStatus where
  id : ℕ
  last_seen : String
  status : BridgeState
  positions_count : ℕ
  error_message : Option String
  updated_at : String
deriving DecidableEq, Repr

/-- Outcome of a Supabase query as destructured by the TS helpers:
`const { data, error } = await supabase...`. -/
structure QueryResp (α : Type) where
  data : Option α
  error : Option String

/-- `fetchPositions` from `frontend/lib/supabase-client.ts`: on `error` it
logs and returns `[]`; otherwise `data || []`. -/
def fetchPositions (resp : QueryResp (List Position)) : List Position :=
  match resp.error with
  | some _ => []
  | none => resp.data.getD []

/-- `fetchRecentTrades` from `frontend/lib/supabase-client.ts`: the `limit`
argument shapes the query (it does not enter the response handling); on
`error` it logs and returns `[]`; otherwise `data || []`. -/
def fetchRecentTrades (_limit : ℕ) (resp : QueryResp (List Trade)) : List Trade :=
  match resp.error with
  | some _ => []
  | none => resp.data.getD []

/-- `fetchBridgeStatus` from `frontend/lib/supabase-client.ts`: on `error` it
logs and returns `null`; otherwise the (possibly null) single row. -/
def fetchBridgeStatus (resp : QueryResp BridgeStatus) : Option BridgeStatus :=
  match resp.error with
  | some _ => none
  | none => resp.data

namespace UseLiveTrades

/-- `handleRealtimeUpdate` from `hooks/useLiveTrades.ts`: on an INSERT payload
the new trade is put at the beginning (most recent first) and the list is cut
with `slice(0, limit)`; other event types leave the state untouched. -/
def handleRealtimeUpdate (limit : ℕ) (eventType : EventType) (newRecord : Trade)
    (prevTrades : List Trade) : List Trade :=
  if eventType = .INSERT then (newRecord :: prevTrades).take limit
  else prevTrades

end UseLiveTrades

namespace UseLivePositions

/-- `handleRealtimeUpdate` from `hooks/useLivePositions.ts`: INSERT appends the
new record only when no position with its ticket exists; UPDATE replaces the
entries whose ticket matches; DELETE filters out the old record's ticket; any
other event type returns the previous list. -/
def handleRealtimeUpdate (eventType : EventType) (newRecord oldRecord : Position)
    (prevPositions : List Position) : List Position :=
  match eventType with
  | .INSERT =>
      if prevPositions.any (fun p => p.ticket == newRecord.ticket) then prevPositions
      else prevPositions ++ [newRecord]
  | .UPDATE =>
      prevPositions.map (fun pos => if pos.ticket == newRecord.ticket then newRecord else pos)
  | .DELETE =>
      prevPositions.filter (fun pos => pos.ticket != oldRecord.ticket)
  | .OTHER => prevPositions

end UseLivePositions

/-! ## Sink semantics of the trades table

From `sql/schema.sql`: `CREATE UNIQUE INDEX idx_trades_unique ON
trades(ticket, action, timestamp)` is the only uniqueness constraint on
`trades` (`idx_trades_ticket_action` on `(ticket, action)` is a plain,
non-unique index), and the setup document prescribes a
`(ticket, action, timestamp)` uniqueness check before insert. -/

/-- Outcome of an insert attempt against the trades table. -/
inductive InsertOutcome where
  | inserted
  | duplicate
deriving DecidableEq, Repr

/-- A row as inserted by the bridge into `trades` (the columns of the DDL
minus the auto-generated `id`). -/
structure TradeRecord where
  ticket : ℕ
  action : TradeAction
  symbol : String
  type : ℕ
  volume : ℚ
  price : ℚ
  profit : Option ℚ
  swap : Option ℚ
  commission : Option ℚ
  comment : Option String
  timestamp : ℕ
deriving DecidableEq, Repr

/-- `append_trade` from the bridge's `supabase_client.py` surface, with the
sink's semantics given by `idx_trades_unique`: a row whose
`(ticket, action, timestamp)` triple is already present is rejected as a
duplicate; any other row is appended. -/
def append_trade (row : TradeRecord) (trades : List TradeRecord) :
    InsertOutcome × List TradeRecord :=
  if trades.any (fun r =>
      r.ticket == row.ticket && r.action == row.action && r.timestamp == row.timestamp)
  then (.duplicate, trades)
  else (.inserted, trades ++ [row])

/-! ## Bridge main-loop sketch

From the bridge design sketch (`main.py` in the implementation plan):
`detect_closes`, the per-tick body of `main_loop`, and its startup
initialization `seen_open_tickets = set()`. -/

/-- `detect_closes(seen_tickets, current_tickets)` from the sketch: returns
tickets that were open but now missing, the set difference
`seen_tickets - current_tickets`. Python ticket sets are modelled as
duplicate-free lists; set difference keeps the members of `seen_tickets`
that are not members of `current_tickets`. -/
def detect_closes (seen_tickets current_tickets : List ℕ) : List ℕ :=
  seen_tickets.filter (fun t => !(current_tickets.contains t))

/-- `current_tickets = {p['ticket'] for p in positions}` from the sketch
(the comprehension builds a set, hence the dedup). -/
def currentTickets (positions : List Position) : List ℕ :=
  (positions.map Position.ticket).dedup

/-- One iteration of the sketch's `main_loop` `try` block, with the fallible
calls made explicit: `fetched = none` models `get_open_positions` raising,
and the two Booleans model `upsert_positions` and `process_closed_tickets`
raising. Returns the seen-ticket set after the iteration together with the
`(ticket, CLOSE)` trade events appended by `process_closed_tickets` (the
sketch appends trades only there — it never appends OPEN events). On any
exception the `except` branch is taken: `seen_open_tickets` keeps its value
and no events are recorded. -/
def main_tick (seen : List ℕ) (fetched : Option (List Position))
    (upsert_ok process_ok : Bool) : List ℕ × List (ℕ × TradeAction) :=
  match fetched with
  | none => (seen, [])
  | some positions =>
      if upsert_ok then
        let current := currentTickets positions
        let closed := detect_closes seen current
        if process_ok then
          (current, closed.map (fun t => (t, TradeAction.CLOSE)))
        else (seen, [])
      else (seen, [])

/-- The sketch's `main_loop` run over a list of per-tick snapshots in which
every fallible call succeeds, accumulating the trade events appended to the
store. -/
def run_ticks (seen : List ℕ) : List (List Position) → List ℕ × List (ℕ × TradeAction)
  | [] => (seen, [])
  | snap :: rest =>
      let step := main_tick seen (some snap) true true
      let further := run_ticks step.1 rest
      (further.1, step.2 ++ further.2)

/-- Durable store state visible to the bridge at startup: the tickets in the
`positions` table and the persisted trade log (ticket, action pairs). -/
structure StoreState where
  positionsTable : List ℕ
  tradeLog : List (ℕ × TradeAction)

/-- The sketch's startup initialization `seen_open_tickets = set()`: the
in-memory seen set starts empty regardless of the durable store contents. -/
def sketch_initial_baseline (_store : StoreState) : List ℕ := []

/-- Modelled from the spec: the State Recovery startup procedure (§4.3),
which has no implementation in the repository — `baseline := tickets in the
store's position table ∪ tickets with a persisted OPEN trade event but no
CLOSE` (union and difference as set operations on duplicate-free lists).
Used to contrast with `sketch_initial_baseline`. -/
def recoverBaseline (store : StoreState) : List ℕ :=
  (store.positionsTable ++
    (((store.tradeLog.filter (fun e => e.2 == TradeAction.OPEN)).map Prod.fst).filter
      (fun t => !(((store.tradeLog.filter (fun e => e.2 == TradeAction.CLOSE)).map
        Prod.fst).contains t)))).dedup

/-- Per-ticket action sequence of a persisted trade log, in append order. -/
def actionsFor (t : ℕ) (log : List (ℕ × TradeAction)) : List TradeAction :=
  (log.filter (fun e => e.1 == t)).map Prod.snd

/-- The trade-log invariant of spec §3: for a ticket, the persisted actions
form an initial segment of `[OPEN]` or `[OPEN, CLOSE]`. -/
def validTradeSeq (l : List TradeAction) : Prop :=
  l = [] ∨ l = [TradeAction.OPEN] ∨ l = [TradeAction.OPEN, TradeAction.CLOSE]

instance (l : List TradeAction) : Decidable (validTradeSeq l) := by
  unfold validTradeSeq
  infer_instance

/-- A sample open position used as concrete input in evaluations. -/
def samplePosition : Position :=
  ⟨1, "EURUSD", 0, 1, 1, none, none, none, none, none, "t0"⟩

/-- A second sample position, with a distinct ticket. -/
def samplePosition2 : Position :=
  ⟨2, "GBPUSD", 1, 2, 1, none, none, none, none, none, "t0"⟩

/-- A sample trade row for the sink, parameterized by its timestamp. -/
def sampleTradeRow (ts : ℕ) : TradeRecord :=
  ⟨100, TradeAction.OPEN, "EURUSD", 0, 1, 1, none, none, none, none, ts⟩

/-! ## Retry Controller

Modelled from the spec: the Retry Controller (§4.1) has no code in the
repository — the resilience section of the setup document gives only prose
guidance ("retry with exponential backoff", "retry with jitter, max 3
attempts") — so `execute` below is modelled from the spec's contract
`execute(operation, policy) -> Result<T, Failure>` with delay
`min(maxDelay, baseDelay * 2^(attempt-1))` randomized by ±jitterFraction. -/

/-- Retry policy `{maxAttempts, baseDelay, maxDelay, jitterFraction}` (§4.1). -/
structure RetryPolicy where
  maxAttempts : ℕ
  baseDelay : ℚ
  maxDelay : ℚ
  jitterFraction : ℚ
deriving DecidableEq, Repr

/-- `Result<T, Failure>`: either the operation's value or a terminal
`Failure{cause, attempts}` — a value, not a raised exception. -/
inductive RetryResult (T E : Type) where
  | success (value : T)
  | failure (cause : E) (attempts : ℕ)
deriving DecidableEq, Repr

/-- Delay slept after failed attempt `k` (before attempt `k+1`):
`min(maxDelay, baseDelay * 2^(k-1))`, randomized by the jitter draw for that
attempt (a multiplicative factor `1 + jitter k` with `|jitter k| ≤
jitterFraction` for a ±jitterFraction randomization). -/
def retryDelay (policy : RetryPolicy) (jitter : ℕ → ℚ) (k : ℕ) : ℚ :=
  min policy.maxDelay (policy.baseDelay * 2 ^ (k - 1)) * (1 + jitter k)

/-- Attempt loop of `execute`: runs attempt number `attempt`, and on failure
either stops (no attempts remaining) with `Failure{cause, attempts}` or
sleeps the backoff delay and recurses. Also returns the list of delays slept. -/
def executeAux {T E : Type} (policy : RetryPolicy) (op : ℕ → Except E T)
    (jitter : ℕ → ℚ) : ℕ → ℕ → RetryResult T E × List ℚ
  | attempt, remaining =>
      match op attempt with
      | .ok v => (.success v, [])
      | .error e =>
          match remaining with
          | 0 => (.failure e attempt, [])
          | r + 1 =>
              let rest := executeAux policy op jitter (attempt + 1) r
              (rest.1, retryDelay policy jitter attempt :: rest.2)

/-- `execute(operation, policy)` (§4.1): performs up to `maxAttempts`
attempts, numbered from 1, and returns a `RetryResult` together with the
delays slept between attempts. -/
def execute {T E : Type} (policy : RetryPolicy) (op : ℕ → Except E T)
    (jitter : ℕ → ℚ) : RetryResult T E × List ℚ :=
  executeAux policy op jitter 1 (policy.maxAttempts - 1)

/-- Attempt count carried by a terminal failure (0 for a success). -/
def failureAttempts {T E : Type} : RetryResult T E → ℕ
  | .success _ => 0
  | .failure _ a => a

/-! ## Helper lemmas -/

/-- Running the attempt loop on an operation that fails at every attempt
performs all remaining attempts, ends in a terminal failure carrying the last
attempt's cause and number, and sleeps the backoff delay after each failed
attempt but the last. -/
theorem executeAux_all_fail {T E : Type} (policy : RetryPolicy) (cause : ℕ → E)
    (jitter : ℕ → ℚ) :
    ∀ (r a : ℕ),
      executeAux policy (fun k => (Except.error (cause k) : Except E T)) jitter a r =
        (RetryResult.failure (cause (a + r)) (a + r),
          (List.range r).map (fun i => retryDelay policy jitter (a + i))) := by
  intro r
  induction r with
  | zero => intro a; simp [executeAux]
  | succ n ih =>
      intro a
      have h1 : executeAux policy (fun k => (Except.error (cause k) : Except E T)) jitter
          a (n + 1) =
          ((executeAux policy (fun k => (Except.error (cause k) : Except E T)) jitter
              (a + 1) n).1,
            retryDelay policy jitter a ::
              (executeAux policy (fun k => (Except.error (cause k) : Except E T)) jitter
                (a + 1) n).2) := rfl
      have h3 : (List.range (n + 1)).map (fun i => retryDelay policy jitter (a + i)) =
          retryDelay policy jitter a ::
            (List.range n).map (fun i => retryDelay policy jitter (a + 1 + i)) := by
        rw [List.range_succ_eq_map, List.map_cons, List.map_map]
        refine congrArg₂ List.cons (by simp) ?_
        apply List.map_congr_left
        intro i _
        show retryDelay policy jitter (a + (i + 1)) = retryDelay policy jitter (a + 1 + i)
        rw [show a + (i + 1) = a + 1 + i from by omega]
      rw [h1, ih (a + 1), h3, show a + 1 + n = a + (n + 1) from by omega]

/-- The attempt number reported by a terminal failure of the attempt loop is
bounded by the first attempt number plus the remaining retries. -/
theorem executeAux_attempts_le {T E : Type} (policy : RetryPolicy)
    (op : ℕ → Except E T) (jitter : ℕ → ℚ) :
    ∀ (r a : ℕ), failureAttempts (executeAux policy op jitter a r).1 ≤ a + r := by
  intro r
  induction r with
  | zero =>
      intro a
      rw [executeAux]
      cases hop : op a <;> simp [hop, failureAttempts]
  | succ n ih =>
      intro a
      rw [executeAux]
      cases hop : op a with
      | ok v => simp [hop, failureAttempts]
      | error e =>
          simp only [hop]
          have h2 := ih (a + 1)
          rcases hres : (executeAux policy op jitter (a + 1) n).1 with w | ⟨c, m⟩
          · rw [hres] at h2
            simp only [failureAttempts] at h2 ⊢
            omega
          · rw [hres] at h2
            simp only [failureAttempts] at h2 ⊢
            omega

/-- Replacing the positions whose ticket matches the incoming record's ticket
by that record does not change the list of tickets. -/
theorem tickets_after_replace (newRecord : Position) (l : List Position) :
    (l.map (fun pos => if pos.ticket == newRecord.ticket then newRecord else pos)).map
        Position.ticket = l.map Position.ticket := by
  induction l with
  | nil => rfl
  | cons p rest ih =>
      by_cases h : p.ticket == newRecord.ticket
      · simp only [List.map_cons, h, if_pos]
        rw [ih]
        have : newRecord.ticket = p.ticket := (beq_iff_eq.mp h).symm
        simp [this]
      · simp only [List.map_cons, h, if_neg]
        rw [ih]
        simp [h]

/-! ## Claims -/

/-- C1: the sketch's `main_loop` initializes `seen_open_tickets` to the empty
set, not to the union of the store's position-table tickets and the tickets
with a persisted OPEN but no CLOSE. With ticket 100 open in the store (an
OPEN trade event and a position row, no CLOSE) and the first post-restart
snapshot empty, the code emits no CLOSE event at all, while the spec's
recovered baseline would be `{100}` and would yield exactly the one CLOSE
event for ticket 100. -/
theorem restart_missed_close :
    (run_ticks (sketch_initial_baseline ⟨[100], [(100, TradeAction.OPEN)]⟩) [[]]).2 = []
    ∧ recoverBaseline ⟨[100], [(100, TradeAction.OPEN)]⟩ = [100]
    ∧ (run_ticks (recoverBaseline ⟨[100], [(100, TradeAction.OPEN)]⟩) [[]]).2 =
        [(100, TradeAction.CLOSE)] := by
  decide

/-- C2 counterexample: the sink's only uniqueness guard is
`idx_trades_unique` on `(ticket, action, timestamp)`, so a second insert with
the same `(ticket, action)` but a fresh timestamp is reported `inserted` and
leaves two stored rows for that `(ticket, action)` pair — the claimed
`(ticket, action)` uniqueness does not hold. -/
theorem trades_ticket_action_not_unique :
    (append_trade (sampleTradeRow 1) (append_trade (sampleTradeRow 0) []).2).1 =
      InsertOutcome.inserted
    ∧ ((append_trade (sampleTradeRow 1) (append_trade (sampleTradeRow 0) []).2).2.filter
        (fun r => r.ticket == 100 && r.action == TradeAction.OPEN)).length = 2 := by
  decide

/-- C2 (amended): uniqueness is enforced by the sink on
`(ticket, action, timestamp)`: inserting the same row twice leaves exactly
one stored row with that key, and the second call reports `duplicate` (an
outcome value, not an error). -/
theorem append_trade_idempotent (trades : List TradeRecord) (row : TradeRecord)
    (h : trades.any (fun r => r.ticket == row.ticket && r.action == row.action &&
      r.timestamp == row.timestamp) = false) :
    (append_trade row (append_trade row trades).2).1 = InsertOutcome.duplicate
    ∧ (append_trade row (append_trade row trades).2).2 = trades ++ [row]
    ∧ ((append_trade row (append_trade row trades).2).2.filter (fun r =>
        r.ticket == row.ticket && r.action == row.action &&
          r.timestamp == row.timestamp)).length = 1 := by
  have h1 : append_trade row trades = (InsertOutcome.inserted, trades ++ [row]) := by
    simp [append_trade, h]
  have hrow : (fun r => r.ticket == row.ticket && r.action == row.action &&
      r.timestamp == row.timestamp) row = true := by simp
  have h2 : (trades ++ [row]).any (fun r => r.ticket == row.ticket &&
      r.action == row.action && r.timestamp == row.timestamp) = true := by
    rw [List.any_append, h]
    simp
  have hfilter : trades.filter (fun r => r.ticket == row.ticket &&
      r.action == row.action && r.timestamp == row.timestamp) = [] := by
    rw [List.filter_eq_nil_iff]
    intro r hr
    have := List.any_eq_false.mp h r hr
    simpa using this
  refine ⟨?_, ?_, ?_⟩
  · rw [h1]
    simp [append_trade, h2]
  · rw [h1]
    simp [append_trade, h2]
  · rw [h1]
    simp only [append_trade, h2, if_true]
    rw [List.filter_append, hfilter]
    simp

/-- C2 witness: inserting a fresh row twice into the empty table leaves one
row with its `(ticket, action, timestamp)` key and reports `duplicate` on the
second call. -/
theorem append_trade_idempotent_witness :
    ([] : List TradeRecord).any (fun r => r.ticket == (sampleTradeRow 0).ticket &&
      r.action == (sampleTradeRow 0).action &&
      r.timestamp == (sampleTradeRow 0).timestamp) = false
    ∧ ((append_trade (sampleTradeRow 0) (append_trade (sampleTradeRow 0) []).2).1 =
        InsertOutcome.duplicate
      ∧ (append_trade (sampleTradeRow 0) (append_trade (sampleTradeRow 0) []).2).2 =
        [] ++ [sampleTradeRow 0]
      ∧ ((append_trade (sampleTradeRow 0) (append_trade (sampleTradeRow 0) []).2).2.filter
          (fun r => r.ticket == (sampleTradeRow 0).ticket &&
            r.action == (sampleTradeRow 0).action &&
            r.timestamp == (sampleTradeRow 0).timestamp)).length = 1) :=
  ⟨by decide, append_trade_idempotent [] (sampleTradeRow 0) (by decide)⟩

/-- C3: `detect_closes` emits CLOSE for exactly the set difference
`baseline − currentTickets`: a ticket is closed in a tick exactly when it is
in the baseline and does not appear among the snapshot's tickets, and the
events appended by that tick are exactly the CLOSE events for those
tickets. -/
theorem detect_closes_spec (baseline : List ℕ) (snapshot : List Position) (t : ℕ)
    (a : TradeAction) :
    (t ∈ detect_closes baseline (currentTickets snapshot) ↔
      t ∈ baseline ∧ t ∉ snapshot.map Position.ticket)
    ∧ ((t, a) ∈ (run_ticks baseline [snapshot]).2 ↔
      a = TradeAction.CLOSE ∧ t ∈ baseline ∧ t ∉ snapshot.map Position.ticket) := by
  constructor
  · simp [detect_closes, currentTickets, List.mem_filter]
  · simp [run_ticks, main_tick, detect_closes, currentTickets, List.mem_filter,
      List.mem_map]
    constructor
    · rintro ⟨x, ⟨hx, hnx⟩, hxt, hxa⟩
      subst hxt
      exact ⟨hxa.symm, hx, hnx⟩
    · rintro ⟨ha, hx, hnx⟩
      exact ⟨t, ⟨hx, hnx⟩, rfl, ha.symm⟩

/-- C4: on a first tick with baseline `∅` and a snapshot containing ticket 1,
the spec's `opened = currentTickets − baseline` is `{1}`, yet the sketch's
tick appends no trade event at all — `main_loop` never constructs an OPEN
event (its only trade writes are the CLOSE appends of
`process_closed_tickets`). -/
theorem first_tick_emits_no_open :
    currentTickets [samplePosition] = [1]
    ∧ detect_closes (currentTickets [samplePosition]) [] = [1]
    ∧ (run_ticks [] [[samplePosition]]).2 = [] := by
  decide

/-- C5: the sketch's tick assigns `seen_open_tickets = current_tickets` only
after `get_open_positions`, `upsert_positions` and `process_closed_tickets`
have all returned; if any of them raises, the `except` branch leaves the
seen-ticket baseline exactly as it was, and on a fully successful tick the
baseline advances to the snapshot's tickets. -/
theorem tick_failure_keeps_baseline (seen : List ℕ) (fetched : Option (List Position))
    (upsert_ok process_ok : Bool) (positions : List Position)
    (hfail : fetched = none ∨ upsert_ok = false ∨ process_ok = false) :
    (main_tick seen fetched upsert_ok process_ok).1 = seen
    ∧ (main_tick seen (some positions) true true).1 = currentTickets positions := by
  constructor
  · rcases hfail with h | h | h
    · subst h; rfl
    · subst h
      cases fetched <;> simp [main_tick]
    · subst h
      cases fetched with
      | none => rfl
      | some ps => cases upsert_ok <;> simp [main_tick]
  · rfl

/-- C5 witness: a tick whose fetch fails keeps the baseline `[1, 2]`, and a
successful tick with an empty snapshot advances it to the snapshot's (empty)
ticket set. -/
theorem tick_failure_keeps_baseline_witness :
    (main_tick [1, 2] none true true).1 = [1, 2]
    ∧ (main_tick [1, 2] (some []) true true).1 = currentTickets [] :=
  tick_failure_keeps_baseline [1, 2] none true true [] (Or.inl rfl)

/-- C6: starting from an empty store, a tick that opens ticket 1 followed by
a tick where it disappears leaves `[CLOSE]` as the persisted action sequence
for ticket 1 — not a prefix of `[OPEN]` or `[OPEN, CLOSE]` — because the
sketch persists no OPEN events. -/
theorem close_without_open_in_log :
    actionsFor 1 (run_ticks [] [[samplePosition], []]).2 = [TradeAction.CLOSE]
    ∧ ¬ validTradeSeq (actionsFor 1 (run_ticks [] [[samplePosition], []]).2) := by
  decide

/-- C7: the Retry Controller contract (modelled from spec §4.1, no code in
the repository): against an always-failing operation, `execute` performs all
`maxAttempts` attempts, sleeps `min(maxDelay, baseDelay * 2^(k-1))` scaled by
the attempt's jitter factor before attempt `k+1`, and returns a terminal
`Failure{cause, attempts}` value; for any operation the reported attempt
count never exceeds `maxAttempts`; and with jitter draws within
±jitterFraction every delay stays within ±jitterFraction of the raw backoff
delay. -/
theorem execute_contract {T E : Type} (policy : RetryPolicy) (cause : ℕ → E)
    (jitter : ℕ → ℚ) (op : ℕ → Except E T) (k : ℕ)
    (hM : 1 ≤ policy.maxAttempts)
    (hb : 0 ≤ policy.baseDelay) (hd : 0 ≤ policy.maxDelay)
    (hj : ∀ n, |jitter n| ≤ policy.jitterFraction) :
    (execute policy (fun n => (Except.error (cause n) : Except E T)) jitter).1 =
      RetryResult.failure (cause policy.maxAttempts) policy.maxAttempts
    ∧ (execute policy (fun n => (Except.error (cause n) : Except E T)) jitter).2 =
      (List.range (policy.maxAttempts - 1)).map
        (fun i => min policy.maxDelay (policy.baseDelay * 2 ^ i) * (1 + jitter (i + 1)))
    ∧ failureAttempts (execute policy op jitter).1 ≤ policy.maxAttempts
    ∧ min policy.maxDelay (policy.baseDelay * 2 ^ (k - 1)) * (1 - policy.jitterFraction) ≤
        retryDelay policy jitter k
    ∧ retryDelay policy jitter k ≤
        min policy.maxDelay (policy.baseDelay * 2 ^ (k - 1)) * (1 + policy.jitterFraction) := by
  have e1 := executeAux_all_fail (T := T) policy cause jitter (policy.maxAttempts - 1) 1
  have hsum : 1 + (policy.maxAttempts - 1) = policy.maxAttempts := by omega
  have hraw : 0 ≤ min policy.maxDelay (policy.baseDelay * 2 ^ (k - 1)) :=
    le_min hd (mul_nonneg hb (by positivity))
  have hjk := abs_le.mp (hj k)
  refine ⟨?_, ?_, ?_, ?_, ?_⟩
  · rw [execute, e1, hsum]
  · rw [execute, e1]
    apply List.map_congr_left
    intro i _
    show retryDelay policy jitter (1 + i) = _
    rw [retryDelay, Nat.add_comm 1 i, Nat.succ_sub_one]
  · have h2 := executeAux_attempts_le policy op jitter (policy.maxAttempts - 1) 1
    rw [execute]
    omega
  · rw [retryDelay]
    apply mul_le_mul_of_nonneg_left _ hraw
    linarith [hjk.1]
  · rw [retryDelay]
    apply mul_le_mul_of_nonneg_left _ hraw
    linarith [hjk.2]

/-- C7 witness: the contract instantiated at a concrete policy (3 attempts,
base delay 1, max delay 4, jitter fraction 1/10), zero jitter draws and an
always-failing operation. -/
theorem execute_contract_witness :
    (1 ≤ 3)
    ∧ ((execute ⟨3, 1, 4, 1/10⟩ (fun n => (Except.error n : Except ℕ ℕ))
          (fun _ => 0)).1 = RetryResult.failure 3 3
      ∧ (execute ⟨3, 1, 4, 1/10⟩ (fun n => (Except.error n : Except ℕ ℕ))
          (fun _ => 0)).2 =
        (List.range (3 - 1)).map (fun i => min (4 : ℚ) (1 * 2 ^ i) * (1 + 0))
      ∧ failureAttempts (execute ⟨3, 1, 4, 1/10⟩
          (fun _ => (Except.error 0 : Except ℕ ℕ)) (fun _ => 0)).1 ≤ 3
      ∧ min (4 : ℚ) (1 * 2 ^ (2 - 1)) * (1 - 1/10) ≤
          retryDelay ⟨3, 1, 4, 1/10⟩ (fun _ => 0) 2
      ∧ retryDelay ⟨3, 1, 4, 1/10⟩ (fun _ => 0) 2 ≤
          min (4 : ℚ) (1 * 2 ^ (2 - 1)) * (1 + 1/10)) :=
  ⟨by norm_num,
    execute_contract ⟨3, 1, 4, 1/10⟩ (fun n => n) (fun _ => 0)
      (fun _ => Except.error 0) 2 (by norm_num) (by norm_num) (by norm_num)
      (by intro n; norm_num)⟩

/-- C8: on every realtime INSERT payload the trades handler places the new
trade at the front and truncates to the first `limit` entries, so the
resulting list never exceeds `limit` in length. -/
theorem live_trades_bounded (limit : ℕ) (tr : Trade) (prevTrades : List Trade) :
    UseLiveTrades.handleRealtimeUpdate limit EventType.INSERT tr prevTrades =
      (tr :: prevTrades).take limit
    ∧ (UseLiveTrades.handleRealtimeUpdate limit EventType.INSERT tr prevTrades).length ≤
      limit := by
  refine ⟨rfl, ?_⟩
  show ((tr :: prevTrades).take limit).length ≤ limit
  rw [List.length_take]
  omega

/-- C9: the query helpers never surface a store error: whenever the response
carries an error, `fetchPositions` and `fetchRecentTrades` return the empty
list and `fetchBridgeStatus` returns `none`; and when no data is present the
two list helpers also return the empty list. -/
theorem query_helpers_error_safe (e : String) (limit : ℕ) (dp : Option (List Position))
    (dt : Option (List Trade)) (db : Option BridgeStatus) :
    fetchPositions ⟨dp, some e⟩ = []
    ∧ fetchRecentTrades limit ⟨dt, some e⟩ = []
    ∧ fetchBridgeStatus ⟨db, some e⟩ = none
    ∧ fetchPositions ⟨none, none⟩ = []
    ∧ fetchRecentTrades limit ⟨none, none⟩ = [] :=
  ⟨rfl, rfl, rfl, rfl, rfl⟩

/-- C10: the positions handler preserves pairwise-distinct tickets: INSERT
leaves the list unchanged when the incoming ticket already exists and
appends otherwise, UPDATE replaces exactly the entries with the matching
ticket, DELETE removes every entry with the deleted ticket, and in every
case the resulting ticket list is duplicate-free whenever the previous one
was. -/
theorem live_positions_handler_nodup (ev : EventType) (newRecord oldRecord : Position)
    (prevPositions : List Position)
    (hnd : (prevPositions.map Position.ticket).Nodup) :
    (UseLivePositions.handleRealtimeUpdate EventType.INSERT newRecord oldRecord prevPositions =
      if prevPositions.any (fun p => p.ticket == newRecord.ticket) then prevPositions
      else prevPositions ++ [newRecord])
    ∧ (UseLivePositions.handleRealtimeUpdate EventType.UPDATE newRecord oldRecord prevPositions =
      prevPositions.map (fun pos => if pos.ticket == newRecord.ticket then newRecord else pos))
    ∧ (UseLivePositions.handleRealtimeUpdate EventType.DELETE newRecord oldRecord prevPositions =
      prevPositions.filter (fun pos => pos.ticket != oldRecord.ticket))
    ∧ ((UseLivePositions.handleRealtimeUpdate ev newRecord oldRecord prevPositions).map
        Position.ticket).Nodup := by
  refine ⟨rfl, rfl, rfl, ?_⟩
  cases ev with
  | INSERT =>
      simp only [UseLivePositions.handleRealtimeUpdate]
      cases h : prevPositions.any (fun p => p.ticket == newRecord.ticket) with
      | true => simpa using hnd
      | false =>
          have hnot : newRecord.ticket ∉ prevPositions.map Position.ticket := by
            intro hmem
            rcases List.mem_map.mp hmem with ⟨p, hp, hpt⟩
            have hfa := List.any_eq_false.mp h p hp
            simp [hpt] at hfa
          simp only [Bool.false_eq_true, if_false, List.map_append, List.map_cons,
            List.map_nil]
          rw [List.nodup_append]
          refine ⟨hnd, List.nodup_singleton _, ?_⟩
          intro x hx hx2
          rw [List.mem_singleton] at hx2
          subst hx2
          exact hnot hx
  | UPDATE =>
      simp only [UseLivePositions.handleRealtimeUpdate]
      rw [tickets_after_replace]
      exact hnd
  | DELETE =>
      simp only [UseLivePositions.handleRealtimeUpdate]
      exact hnd.sublist ((prevPositions.filter_sublist).map Position.ticket)
  | OTHER => exact hnd

/-- C10 witness: a DELETE payload applied to a two-position list with
distinct tickets keeps the ticket list duplicate-free. -/
theorem live_positions_handler_nodup_witness :
    (([samplePosition, samplePosition2].map Position.ticket).Nodup)
    ∧ ((UseLivePositions.handleRealtimeUpdate EventType.DELETE samplePosition samplePosition2
        [samplePosition, samplePosition2]).map Position.ticket).Nodup :=
  ⟨by decide,
    (live_positions_handler_nodup EventType.DELETE samplePosition samplePosition2
        [samplePosition, samplePosition2] (by decide)).2.2.2⟩
